import Mathlib

/-!
Shallow embedding of the LiveIntent LiveConnect Prebid.js modules
(`modules/liveConnect.js` and `modules/userId/liveIntentIdSystem.js`)
together with proofs about the specified behaviour.

JavaScript values that flow through untrusted configuration are modelled
by the inductive `JSV`; machine effects (cookie jar, local storage,
exceptions thrown by storage primitives, pixel emission) are modelled by
an explicit state-and-exception monad `BM` over `BrowserSt`.
-/

namespace LiveConnectSpec

/-- Model of a JavaScript value as it appears in untrusted configuration.
`undefined` is JavaScript `undefined`, `null` is JavaScript `null`.
(`NaN` is not modelled; no claim depends on it.) -/
inductive JSV where
  | undefined : JSV
  | null : JSV
  | boolean : Bool → JSV
  | num : Int → JSV
  | str : String → JSV
  | arr : List JSV → JSV
  | obj : List (String × JSV) → JSV

/-- JavaScript truthiness for the modelled values. -/
def truthy : JSV → Bool
  | .undefined => false
  | .null => false
  | .boolean b => b
  | .num n => n != 0
  | .str s => s != ""
  | .arr _ => true
  | .obj _ => true

/-- Property access `v[k]`: a missing key and access on a non-object both
yield `undefined`.  (In the embedded code every property access on a
possibly-`null` base is guarded by a truthiness test first, so the
`undefined`-base case is never reached with a throw in the source.) -/
def getField : JSV → String → JSV
  | .obj fields, k =>
    match fields.find? (fun p => p.1 == k) with
    | some p => p.2
    | none => .undefined
  | _, _ => .undefined

/-- `utils.isStr`. -/
def isStr : JSV → Bool
  | .str _ => true
  | _ => false

/-- `utils.isNumber`. -/
def isNumber : JSV → Bool
  | .num _ => true
  | _ => false

/-- `utils.isPlainObject`. -/
def isPlainObject : JSV → Bool
  | .obj _ => true
  | _ => false

/-- `utils.isArray`. -/
def isArray : JSV → Bool
  | .arr _ => true
  | _ => false

-- Elementwise JavaScript string coercion used in template literals,
-- mutually recursive with the coercion of array elements.
mutual

def jsToString : JSV → String
  | .undefined => "undefined"
  | .null => "null"
  | .boolean b => if b then "true" else "false"
  | .num n => toString n
  | .str s => s
  | .arr xs => jsToStringList (xs)
  | .obj _ => "[object Object]"

def jsToStringList : List JSV → String
  | [] => ""
  | [v] => jsToString v
  | v :: w :: rest => jsToString v ++ "," ++ jsToStringList (w :: rest)

end

/-- `a || b` on nullable strings, with the empty string falsy. -/
def firstTruthy (a b : Option String) : Option String :=
  match a with
  | some s => if s = "" then b else some s
  | none => b

/-- Truthiness of a nullable string. -/
def truthyStr : Option String → Bool
  | some s => s != ""
  | none => false

end LiveConnectSpec

namespace LiveIntentId

open LiveConnectSpec

/- ===== modules/userId/liveIntentIdSystem.js ===== -/

def MODULE_NAME : String := "liveIntentId"
def LIVE_CONNECT_DUID_KEY : String := "_li_duid"
def DOMAIN_USER_ID_QUERY_PARAM_KEY : String := "duid"
def DEFAULT_LIVEINTENT_IDENTITY_URL : String := "//id.liadm.com"
def DEFAULT_PREBID_SOURCE : String := "prebid"

/-- `String.prototype.replace(pat, rep)` with a string pattern replaces
only the first occurrence of `pat` (list-of-characters form). -/
def replaceFirstAux (pat rep : List Char) : List Char → List Char
  | [] => if pat.isEmpty then rep else []
  | c :: rest =>
    if pat.isPrefixOf (c :: rest) then rep ++ (c :: rest).drop pat.length
    else c :: replaceFirstAux pat rep rest

/-- `s.replace(pat, rep)` for string pattern `pat`: first occurrence only. -/
def jsReplaceFirst (pat rep s : String) : String :=
  ⟨replaceFirstAux pat.data rep.data s.data⟩

/-- Whether `pat` occurs as a contiguous substring (used only in
specification statements, not by the embedded code). -/
def hasSubstr (pat : List Char) : List Char → Bool
  | [] => pat.isPrefixOf ([] : List Char)
  | c :: rest => pat.isPrefixOf (c :: rest) || hasSubstr pat rest

/-- The outbound query-string key for one gathered identifier
(`identifier.replace(LIVE_CONNECT_DUID_KEY, DOMAIN_USER_ID_QUERY_PARAM_KEY)`). -/
def duidQueryKey (identifier : String) : String :=
  jsReplaceFirst LIVE_CONNECT_DUID_KEY DOMAIN_USER_ID_QUERY_PARAM_KEY identifier

/-- JavaScript object property assignment `obj[k] = v` on an
insertion-ordered association list: overwrite in place or append. -/
def upsert (acc : List (String × String)) (k v : String) : List (String × String) :=
  if acc.any (fun p => p.1 == k) then
    acc.map (fun p => if p.1 == k then (k, v) else p)
  else acc ++ [(k, v)]

/-- The storage read primitives the resolver consumes
(`utils.getCookie` / `utils.getDataFromLocalStorage`); both return a
string or `null`, so the `typeof value === 'object'` branch of the
source's reduce is unreachable and is not modelled. -/
structure ResolverPrims where
  getCookie : String → Option String
  lsGet : String → Option String

/-- The `reduce` in `getId` building the `additionalIdentifiers` object,
written as structural recursion over the identifier names. -/
def gatherGo (prims : ResolverPrims) (acc : List (String × String)) :
    List String → List (String × String)
  | [] => acc
  | identifier :: rest =>
    let value := firstTruthy (prims.getCookie identifier) (prims.lsGet identifier)
    let acc' :=
      if truthyStr value then upsert acc (duidQueryKey identifier) (value.getD "")
      else acc
    gatherGo prims acc' rest

/-- `additionalIdentifierNames.concat([LIVE_CONNECT_DUID_KEY]).reduce(...)`. -/
def gatherIdentifiers (prims : ResolverPrims) (names : List String) :
    List (String × String) :=
  gatherGo prims [] (names ++ [LIVE_CONNECT_DUID_KEY])

/-- `&`-joined `name=value` pairs (`utils.parseQueryStringParameters`;
percent-encoding of values is external and not claim-relevant, so it is
the identity here). -/
def joinAmp : List String → String
  | [] => ""
  | [p] => p
  | p :: q :: rest => p ++ "&" ++ joinAmp (q :: rest)

/-- Result of `getId`: either the early error return (`undefined`, no
network call) with the logged message, or the deferred GET request with
its URL and the gathered identifier pairs. -/
inductive GetIdResult where
  | noop : String → GetIdResult
  | call : String → List (String × String) → GetIdResult
  deriving Repr, DecidableEq

/-- `configParams && configParams.publisherId` (`&&` returns its left
operand when that operand is falsy). -/
def publisherIdOf (configParams : JSV) : JSV :=
  if truthy configParams then getField configParams "publisherId" else configParams

/-- The configured extra identifier names (`configParams.identifiersToResolve || []`,
coerced elementwise to strings; a truthy non-array value would make the
source's `.concat`/`.reduce` chain misbehave and is not exercised by any
claim, so it degrades to the empty list here). -/
def identifiersToResolveOf (configParams : JSV) : List String :=
  match getField configParams "identifiersToResolve" with
  | .arr xs => xs.map jsToString
  | _ => []

/-- `liveIntentIdSubmodule.getId` (the early-return guard plus the URL
and query assembly; the quotes around the interpolated value in the
logged message are omitted). -/
def getId (prims : ResolverPrims) (configParams : JSV) : GetIdResult :=
  let publisherId := publisherIdOf configParams
  if !truthy publisherId && !isStr publisherId then
    .noop (MODULE_NAME ++ " - publisherId must be defined, not a " ++ jsToString publisherId)
  else
    let baseUrl :=
      if truthy (getField configParams "url") then jsToString (getField configParams "url")
      else DEFAULT_LIVEINTENT_IDENTITY_URL
    let params := gatherIdentifiers prims (identifiersToResolveOf configParams)
    let queryString := joinAmp (params.map (fun p => p.1 ++ "=" ++ p.2))
    let url := baseUrl ++ "/idex/" ++ DEFAULT_PREBID_SOURCE ++ "/" ++ jsToString publisherId
      ++ "?" ++ queryString
    .call url params

/-- Whether `getId` took the early error return. -/
def isNoop : GetIdResult → Bool
  | .noop _ => true
  | .call _ _ => false

end LiveIntentId

namespace LiveConnect

open LiveConnectSpec

/- ===== modules/liveConnect.js ===== -/

def COOKIE : String := "cookie"
def LOCAL_STORAGE : String := "html5"
def LIVE_PIXEL_URL : String := "//rp.liadm.com/p"
def DUID_NAME : String := "_lc2_duid"

/-- The validated storage sub-config produced by `validateConfig`
(exactly the keys the validator sets: `type` and `expires`; the source
sets no `name` key). -/
structure StorageCfg where
  type : String
  expires : Int
  deriving Repr, DecidableEq

/-- The validated configuration produced by `validateConfig`.  The two
top-level identifier fields are `none` when the corresponding key was
never assigned (the early return for a falsy raw config), mirroring a
JavaScript object on which the key is absent.  For
`providedFirstPartyIdentifier`, `some none` is an assigned `null`. -/
structure ValidCfg where
  scrapedIdentifiers : Option (List String)
  providedFirstPartyIdentifier : Option (Option String)
  storage : StorageCfg
  deriving Repr, DecidableEq

/-- The `validConfig` value after its first three assignments (storage
defaults set, identifier keys not yet assigned). -/
def defaultValidCfg : ValidCfg :=
  { scrapedIdentifiers := none
    providedFirstPartyIdentifier := none
    storage := { type := COOKIE, expires := 730 } }

/-- `isArrayOfStrings`. -/
def isArrayOfStrings (v : JSV) : Bool :=
  match v with
  | .arr xs => xs.all isStr
  | _ => false

/-- The strings of a value satisfying `isArrayOfStrings`. -/
def strListOf : JSV → List String
  | .arr xs => xs.filterMap (fun v => match v with | .str s => some s | _ => none)
  | _ => []

/-- `CONFIG.STORAGE.TYPE.ALLOWED`. -/
def ALLOWED_TYPES : List String := [COOKIE, LOCAL_STORAGE]

/-- `validateConfig`: storage defaults first, early return on a falsy
raw config, then `validOrDefault` per field.  `validOrDefault` is
inlined as the `if`-per-field below. -/
def validateConfig (config : JSV) : ValidCfg :=
  if !truthy config then defaultValidCfg
  else
    let scraped :=
      if isArrayOfStrings (getField config "scrapedIdentifiers") then
        strListOf (getField config "scrapedIdentifiers")
      else []
    let pfpi : Option String :=
      match getField config "providedFirstPartyIdentifier" with
      | .str s => some s
      | _ => none
    let storage := getField config "storage"
    let stype :=
      if isPlainObject storage then
        match getField storage "type" with
        | .str s => if ALLOWED_TYPES.contains s then s else COOKIE
        | _ => COOKIE
      else COOKIE
    let sexpires :=
      if isPlainObject storage then
        match getField storage "expires" with
        | .num n => n
        | _ => (730 : Int)
      else (730 : Int)
    { scrapedIdentifiers := some scraped
      providedFirstPartyIdentifier := some pfpi
      storage := { type := stype, expires := sexpires } }

/- ===== Browser substrate ===== -/

/-- One observable storage/transport effect. -/
inductive StoreEv where
  | setCookieEv : String → String → String → String → StoreEv
    -- name, value, expires string, domain
  | lsSetEv : String → String → StoreEv
    -- key, value
  | pixelEv : String → StoreEv
    -- `utils.triggerPixel(url)`
  deriving Repr, DecidableEq

/-- Browser-side mutable state: the cookie jar (name, value, expires),
local storage, and the trace of effects performed. -/
structure BrowserSt where
  cookies : List (String × String × String)
  ls : List (String × String)
  events : List StoreEv
  deriving Repr, DecidableEq

/-- How the browser environment behaves: whether cookies are enabled,
which cookie domains the browser silently accepts a write for (the
reason the etld+1 walk exists), and which primitives throw. -/
structure BrowserPolicy where
  cookiesEnabled : Bool
  acceptsDomain : String → Bool
  cookieGetThrows : Bool
  cookieSetThrows : Bool
  lsGetThrows : Bool
  lsSetThrows : Bool

/-- The page-level environment of one beacon run: policy, hostname
labels (`window.location.hostname.split('.')`), resolved page URL, the
clock, the external date/URI primitives, and the next `ulid()` value. -/
structure LCEnv where
  pol : BrowserPolicy
  hostParts : List String
  pageUrl : String
  now : Int
  parseDate : String → Option Int
    -- `new Date(s).getTime()`; `none` models an invalid date (`NaN`)
  formatDate : Int → String
    -- `Date#toUTCString`; day offsets are added to `now` abstractly
  decodeURIComp : String → String
    -- `decodeURIComponent`
  encodeURIComp : String → String
    -- `encodeURIComponent`
  ulidFresh : String

/-- State-and-exception monad for browser code: a thrown exception is an
`Except.error` carrying the message, with the state kept. -/
def BM (α : Type) : Type := BrowserSt → Except String α × BrowserSt

def bmPure {α : Type} (a : α) : BM α := fun σ => (.ok a, σ)

def bmBind {α β : Type} (m : BM α) (f : α → BM β) : BM β := fun σ =>
  match m σ with
  | (.ok a, σ') => f a σ'
  | (.error e, σ') => (.error e, σ')

/-- JavaScript `try { body } catch (e) { handler(e) }`. -/
def bmCatch {α : Type} (m : BM α) (h : String → BM α) : BM α := fun σ =>
  match m σ with
  | (.ok a, σ') => (.ok a, σ')
  | (.error e, σ') => h e σ'

instance : Monad BM where
  pure := bmPure
  bind := bmBind

@[simp] theorem bm_bind_def {α β : Type} (m : BM α) (f : α → BM β) :
    (m >>= f) = bmBind m f := rfl

@[simp] theorem bm_pure_def {α : Type} (a : α) :
    (pure a : BM α) = bmPure a := rfl

/-- Cookie-jar lookup by name (`utils.getCookie` reads the value). -/
def cookieLookup (jar : List (String × String × String)) (name : String) :
    Option String :=
  match jar.find? (fun e => e.1 == name) with
  | some e => some e.2.1
  | none => none

/-- Jar update on an accepted write: overwrite by name or append. -/
def cookieUpdate (jar : List (String × String × String))
    (name value expiresStr : String) : List (String × String × String) :=
  if jar.any (fun e => e.1 == name) then
    jar.map (fun e => if e.1 == name then (name, value, expiresStr) else e)
  else jar ++ [(name, value, expiresStr)]

/-- Local storage lookup (`localStorage.getItem`: `null` when absent). -/
def lsLookup (store : List (String × String)) (key : String) : Option String :=
  match store.find? (fun e => e.1 == key) with
  | some e => some e.2
  | none => none

/-- Local storage update (`localStorage.setItem`). -/
def lsUpdate (store : List (String × String)) (key value : String) :
    List (String × String) :=
  if store.any (fun e => e.1 == key) then
    store.map (fun e => if e.1 == key then (key, value) else e)
  else store ++ [(key, value)]

/-- `utils.getCookie`. -/
def getCookieB (env : LCEnv) (name : String) : BM (Option String) := fun σ =>
  if env.pol.cookieGetThrows then (.error "cookie read failure", σ)
  else (.ok (cookieLookup σ.cookies name), σ)

/-- `utils.setCookie(name, value, expires, sameSite, domain)`: the call
is always recorded as an effect; the jar changes only when the browser
accepts the domain (a silently rejected write is the behaviour the
domain walk exists to detect). -/
def setCookieB (env : LCEnv) (name value expiresStr sameSite domain : String) :
    BM Unit := fun σ =>
  if env.pol.cookieSetThrows then (.error "cookie write failure", σ)
  else
    (.ok (),
      { σ with
        cookies :=
          if env.pol.acceptsDomain domain then cookieUpdate σ.cookies name value expiresStr
          else σ.cookies
        events := σ.events ++ [.setCookieEv name value expiresStr domain] })

/-- `localStorage.getItem`. -/
def lsGetB (env : LCEnv) (key : String) : BM (Option String) := fun σ =>
  if env.pol.lsGetThrows then (.error "local storage read failure", σ)
  else (.ok (lsLookup σ.ls key), σ)

/-- `localStorage.setItem`. -/
def lsSetB (env : LCEnv) (key value : String) : BM Unit := fun σ =>
  if env.pol.lsSetThrows then (.error "local storage write failure", σ)
  else (.ok (), { σ with ls := lsUpdate σ.ls key value
                         events := σ.events ++ [.lsSetEv key value] })

/-- `utils.triggerPixel` (fire-and-forget transport emission). -/
def triggerPixelB (url : String) : BM Unit := fun σ =>
  (.ok (), { σ with events := σ.events ++ [.pixelEv url] })

/-- `decodeURIComponent(x)` coerces a `null` argument to the string
`"null"` before decoding. -/
def jsStrOfOpt : Option String → String
  | some s => s
  | none => "null"

/-- `getFromLocalStorage(name)`: read the `<name>_exp` sibling; the
empty string means no expiration (raw value returned); a non-empty
expiry string is parsed and the value is returned (decoded) only when
the parsed time is strictly in the future; otherwise the value stays
`undefined`. -/
def getFromLocalStorage (env : LCEnv) (name : String) : BM (Option String) := do
  let storedValueExp ← lsGetB env (name ++ "_exp")
  match storedValueExp with
  | some "" => lsGetB env name
  | some expStr =>
    match env.parseDate expStr with
    | some t =>
      if t - env.now > 0 then do
        let v ← lsGetB env name
        pure (some (env.decodeURIComp (jsStrOfOpt v)))
      else pure none
    | none => pure none
  | none => pure none

/-- `getStoredDuid(storage)`: the read is wrapped in `try/catch`; a
thrown exception is logged (second component) and the stored value stays
`undefined`. -/
def getStoredDuid (env : LCEnv) (storageType : String) :
    BM (Option String × List String) :=
  bmCatch
    (do
      let v ←
        if storageType = COOKIE then getCookieB env DUID_NAME
        else if storageType = LOCAL_STORAGE then getFromLocalStorage env DUID_NAME
        else pure none
      pure (v, []))
    (fun e => pure (none, [e]))

/-- `expiresString(expirationDays)`: the expiry string for `now` plus
the configured number of days (`Date#setDate`/`toUTCString` are external;
the day offset is added to the abstract clock directly). -/
def expiresString (env : LCEnv) (expirationDays : Int) : String :=
  env.formatDate (env.now + expirationDays)

/-- `Array.prototype.join('.')`. -/
def joinDot : List String → String
  | [] => ""
  | [q] => q
  | q :: r :: rest => q ++ "." ++ joinDot (r :: rest)

/-- The candidate cookie domains of the walk in `storeCookieOnEtldPlus1`:
for `i` from `hostParts.length - 1` down to `0`, the domain
`'.' + hostParts.slice(i).join('.')` — broadest suffix first. -/
def domainCandidates : List String → List String
  | [] => []
  | p :: rest => domainCandidates rest ++ ["." ++ joinDot (p :: rest)]

/-- The `for` loop of `storeCookieOnEtldPlus1`: write on each candidate
domain in turn and stop as soon as the read-back equals the written
value.  Returns the trace of domains written. -/
def cookieWalk (env : LCEnv) (name value expiresStr : String) :
    List String → BM (List String)
  | [] => pure []
  | d :: ds => do
    setCookieB env name value expiresStr "Lax" d
    let storedCookie ← getCookieB env name
    if storedCookie = some value then pure [d]
    else do
      let t ← cookieWalk env name value expiresStr ds
      pure (d :: t)

/-- `storeCookieOnEtldPlus1(name, value, expiresStr)`: no write at all
when the browser reports cookies disabled; otherwise the domain walk. -/
def storeCookieOnEtldPlus1 (env : LCEnv) (name value expiresStr : String) :
    BM (List String) :=
  if !env.pol.cookiesEnabled then pure []
  else cookieWalk env name value expiresStr (domainCandidates env.hostParts)

/-- `storeDuid(storage, value)`: compute the expiry string and persist
into the configured storage; the whole body is wrapped in `try/catch`
and a thrown exception is logged (returned list) instead of propagating. -/
def storeDuid (env : LCEnv) (storage : StorageCfg) (value : String) :
    BM (List String) :=
  bmCatch
    (do
      let expiresStr := expiresString env storage.expires
      if storage.type = COOKIE then do
        let _ ← storeCookieOnEtldPlus1 env DUID_NAME value expiresStr
        pure []
      else if storage.type = LOCAL_STORAGE then do
        lsSetB env (DUID_NAME ++ "_exp") expiresStr
        lsSetB env DUID_NAME (env.encodeURIComp value)
        pure []
      else pure [])
    (fun e => pure [e])

/-- `getDuid(validConfig)`: reuse the stored duid when truthy, otherwise
the fresh `ulid()`, and persist it in either case.  The second component
collects the logged storage errors. -/
def getDuid (env : LCEnv) (validConfig : ValidCfg) : BM (String × List String) := do
  let r ← getStoredDuid env validConfig.storage.type
  let duid :=
    match r.1 with
    | some s => if s = "" then env.ulidFresh else s
    | none => env.ulidFresh
  let log2 ← storeDuid env validConfig.storage duid
  pure (duid, r.2 ++ log2)

/-- `getFromCookieOrLocalStorage(identifierName)`: cookie first, local
storage when the cookie value is falsy.  NOTE: no `try/catch` here — an
exception from either primitive propagates to the caller. -/
def getFromCookieOrLocalStorage (env : LCEnv) (identifierName : String) :
    BM (Option String) := do
  let identifierValue ← getCookieB env identifierName
  match identifierValue with
  | some v => if v = "" then lsGetB env identifierName else pure (some v)
  | none => lsGetB env identifierName

/-- `getProvidedFpiQueryParams(validConfig)`. -/
def getProvidedFpiQueryParams (env : LCEnv) (validConfig : ValidCfg) :
    BM (Option String) :=
  match validConfig.providedFirstPartyIdentifier with
  | some (some n) =>
    if n = "" then pure none
    else do
      let v ← getFromCookieOrLocalStorage env n
      match v with
      | some pv =>
        if pv = "" then pure none
        else pure (some ("pfpi=" ++ pv ++ "&fpn=" ++ n))
      | none => pure none
  | _ => pure none

/-- The effectful `map` over the scraped identifier names inside
`getScrapedIdentifiers` (empty string for an absent value). -/
def scrapedParams (env : LCEnv) : List String → BM (List String)
  | [] => pure []
  | n :: rest => do
    let v ← getFromCookieOrLocalStorage env n
    let s :=
      match v with
      | some pv => if pv = "" then "" else "ext_" ++ n ++ "=" ++ pv
      | none => ""
    let t ← scrapedParams env rest
    pure (s :: t)

/-- `getScrapedIdentifiers(validConfig)` (the `&`-join after filtering
out the empty params; `null` when nothing resolved or the key is absent). -/
def getScrapedIdentifiers (env : LCEnv) (validConfig : ValidCfg) :
    BM (Option String) :=
  match validConfig.scrapedIdentifiers with
  | some names => do
    let ps ← scrapedParams env names
    let identifiers := LiveIntentId.joinAmp (ps.filter (fun p => p ≠ ""))
    pure (if identifiers ≠ "" then some identifiers else none)
  | none => pure none

/-- `sendLiveConnectPixel()`: validate the registered config, resolve
the duid, assemble the pixel URI and emit it.  Returns the emitted URI. -/
def sendLiveConnectPixel (env : LCEnv) (raw : JSV) : BM String := do
  let validConfig := validateConfig raw
  let pageUrl := env.encodeURIComp env.pageUrl
  let r ← getDuid env validConfig
  let base := LIVE_PIXEL_URL ++ "?duid=" ++ r.1 ++ "&tna=$prebid.version$&pu=" ++ pageUrl
  let fpi ← getProvidedFpiQueryParams env validConfig
  let uri1 :=
    match fpi with
    | some q => base ++ "&" ++ q
    | none => base
  let scraped ← getScrapedIdentifiers env validConfig
  let uri2 :=
    match scraped with
    | some q => uri1 ++ "&" ++ q
    | none => uri1
  triggerPixelB uri2
  pure uri2

/-- Page-lifetime state: the module-scoped `isPixelFired` flag plus the
browser substrate. -/
structure PageSt where
  isPixelFired : Bool
  browser : BrowserSt
  deriving Repr, DecidableEq

/-- `liveConnectHook()`: a no-op once fired; otherwise the consent gate
decides whether the pixel is sent, and the flag is set afterwards.  An
exception thrown by the send (see `getFromCookieOrLocalStorage`)
propagates and skips the flag assignment. -/
def liveConnectHook (env : LCEnv) (raw : JSV) (consent : Bool) (p : PageSt) :
    Except String Unit × PageSt :=
  if p.isPixelFired then (.ok (), p)
  else
    match (if consent then bmBind (sendLiveConnectPixel env raw) (fun _ => bmPure ())
           else bmPure ()) p.browser with
    | (.ok _, σ) => (.ok (), { isPixelFired := true, browser := σ })
    | (.error e, σ) => (.error e, { isPixelFired := false, browser := σ })

/-- `resetPixel()` (test support): clears the flag, touching nothing else. -/
def resetPixel (p : PageSt) : PageSt := { p with isPixelFired := false }

/-- `n` successive invocations of the beacon trigger with consent
permitted (each invocation's own exception, if any, is swallowed by the
host pipeline; the page state persists). -/
def hookIter (env : LCEnv) (raw : JSV) : Nat → PageSt → PageSt
  | 0, p => p
  | n + 1, p => hookIter env raw n (liveConnectHook env raw true p).2

/-- No storage primitive throws. -/
def polNoThrow (pol : BrowserPolicy) : Prop :=
  pol.cookieGetThrows = false ∧ pol.cookieSetThrows = false ∧
  pol.lsGetThrows = false ∧ pol.lsSetThrows = false

/-- Count of transport emissions in an effect trace. -/
def countPixel (evs : List StoreEv) : Nat :=
  (evs.filter (fun e => match e with | .pixelEv _ => true | _ => false)).length

/-- Count of writes of the duid local-storage value key. -/
def countLsDuid (evs : List StoreEv) : Nat :=
  (evs.filter (fun e => match e with | .lsSetEv k _ => k == DUID_NAME | _ => false)).length

/-- Count of cookie-write attempts for the duid cookie. -/
def countCookieDuid (evs : List StoreEv) : Nat :=
  (evs.filter (fun e => match e with | .setCookieEv n _ _ _ => n == DUID_NAME | _ => false)).length

/-- Specification helper: the browser state after one `setCookie`
attempt of the walk (jar updated only when the browser accepts the
domain; the attempt recorded either way). -/
def afterAttempt (env : LCEnv) (name value expiresStr d : String)
    (σ : BrowserSt) : BrowserSt :=
  { σ with
    cookies :=
      (if env.pol.acceptsDomain d then cookieUpdate σ.cookies name value expiresStr
       else σ.cookies)
    events := (σ.events ++ [StoreEv.setCookieEv name value expiresStr d]) }

end LiveConnect

namespace LiveConnectSpec

/- ===== Concrete fixtures used to instantiate theorems ===== -/

/-- Hex digit value, for the concrete percent-decoder below. -/
def hexVal (c : Char) : Option Nat :=
  if '0' ≤ c ∧ c ≤ '9' then some (c.toNat - '0'.toNat)
  else if 'a' ≤ c ∧ c ≤ 'f' then some (c.toNat - 'a'.toNat + 10)
  else if 'A' ≤ c ∧ c ≤ 'F' then some (c.toNat - 'A'.toNat + 10)
  else none

/-- A concrete percent-decoder on characters: one instance of the
external `decodeURIComponent` primitive, used to instantiate theorems
(well-formed `%XX` sequences only, which is all the fixtures use). -/
def percentDecodeAux : List Char → List Char
  | [] => []
  | '%' :: a :: b :: rest =>
    match hexVal a, hexVal b with
    | some x, some y => Char.ofNat (16 * x + y) :: percentDecodeAux rest
    | _, _ => '%' :: percentDecodeAux (a :: b :: rest)
  | c :: rest => c :: percentDecodeAux rest

def percentDecode (s : String) : String := ⟨percentDecodeAux s.data⟩

end LiveConnectSpec

namespace LiveConnect

open LiveConnectSpec

/-- A benign browser policy: everything enabled, every domain accepted,
nothing throws. -/
def polPlain : BrowserPolicy :=
  { cookiesEnabled := true, acceptsDomain := fun _ => true
    cookieGetThrows := false, cookieSetThrows := false
    lsGetThrows := false, lsSetThrows := false }

/-- A benign concrete environment. -/
def envPlain : LCEnv :=
  { pol := polPlain
    hostParts := ["www", "example", "com"]
    pageUrl := "http://www.example.com/"
    now := 1000
    parseDate := fun _ => none
    formatDate := fun t => "UTC" ++ toString t
    decodeURIComp := percentDecode
    encodeURIComp := fun s => s
    ulidFresh := "01ARZ3NDEKTSV4RRFFQ69G5FAV" }

/-- Same environment, but `utils.getCookie` throws. -/
def envBadCookieGet : LCEnv :=
  { envPlain with pol := { polPlain with cookieGetThrows := true } }

/-- Environment whose date parser maps `"B"` to time 1000 (= `now`). -/
def envBoundary : LCEnv :=
  { envPlain with parseDate := fun s => if s = "B" then some 1000 else none }

/-- Environment in which the browser only accepts cookie writes on the
`.example.com` domain (rejects the public-suffix write). -/
def envSelective : LCEnv :=
  { envPlain with pol := { polPlain with acceptsDomain := fun d => d == ".example.com" } }

def emptyBrowser : BrowserSt := { cookies := [], ls := [], events := [] }

/-- Local storage holding a never-expiring percent-encoded entry. -/
def lsNeverExpires : BrowserSt :=
  { cookies := [], ls := [("k_exp", ""), ("k", "a%20b")], events := [] }

/-- Local storage whose entry expires exactly at the current time. -/
def lsAtBoundary : BrowserSt :=
  { cookies := [], ls := [("k_exp", "B"), ("k", "a%20b")], events := [] }

/-- Local storage holding a value key with no expiry sibling. -/
def lsNoExpKey : BrowserSt :=
  { cookies := [], ls := [("k", "a%20b")], events := [] }

/-- A raw config with one scraped identifier. -/
def rawScraped : JSV := .obj [("scrapedIdentifiers", .arr [.str "sid"])]

/-- The raw config of the repository's own custom-name test
(`{storage: {name: 'custom_name'}}`). -/
def rawCustomName : JSV := .obj [("storage", .obj [("name", .str "custom_name")])]

/-- The validated all-default html5-storage configuration. -/
def cfgHtml5 : ValidCfg :=
  validateConfig (.obj [("storage", .obj [("type", .str "html5")])])

/-- Local storage holding a valid never-expiring stored duid `"S"`. -/
def lsDuidStored : BrowserSt :=
  { cookies := [], ls := [("_lc2_duid_exp", ""), ("_lc2_duid", "S")], events := [] }

end LiveConnect

namespace LiveIntentId

open LiveConnectSpec

/-- Resolver storage with no identifiers at all. -/
def primsEmpty : ResolverPrims := { getCookie := fun _ => none, lsGet := fun _ => none }

/-- Resolver storage holding only the built-in `_li_duid` cookie. -/
def primsDuidOnly : ResolverPrims :=
  { getCookie := fun n => if n = "_li_duid" then some "V" else none
    lsGet := fun _ => none }

end LiveIntentId

namespace LiveConnect

open LiveConnectSpec

/- ===== Theorems ===== -/

/-- C8 (counterexample): a missing raw configuration does NOT validate to
the same structure as an empty-object configuration — the early return
leaves the `scrapedIdentifiers` and `providedFirstPartyIdentifier` keys
absent, while validating `{}` sets them to their defaults. -/
theorem validateConfig_missing_ne_empty :
    validateConfig JSV.undefined ≠ validateConfig (JSV.obj []) := by
  decide

/-- C8 (amended): `validateConfig` is total; a falsy raw configuration
returns early with only the storage defaults (identifier keys left
absent), a truthy non-object raw configuration validates exactly like an
empty object, and an empty object yields every field at its documented
default. -/
theorem validateConfig_defaulting :
    (∀ c : JSV, truthy c = false → validateConfig c = defaultValidCfg)
    ∧ validateConfig (JSV.str "notAnObject") = validateConfig (JSV.obj [])
    ∧ validateConfig (JSV.obj [])
      = { scrapedIdentifiers := some []
          providedFirstPartyIdentifier := some none
          storage := { type := COOKIE, expires := 730 } } := by
  refine ⟨?_, by decide, by decide⟩
  intro c h
  simp [validateConfig, h]

/-- Witness for `validateConfig_defaulting` at the falsy input `null`. -/
theorem validateConfig_defaulting_witness :
    truthy JSV.null = false ∧ validateConfig JSV.null = defaultValidCfg :=
  ⟨rfl, validateConfig_defaulting.1 JSV.null rfl⟩

end LiveConnect

namespace LiveIntentId

open LiveConnectSpec

/-- C3 (counterexample): with an empty-string `publisherId` — falsy but
a string — `getId` does NOT take the error return: it issues the network
call (here with the empty publisher path segment). -/
theorem getId_empty_publisher_calls :
    getId primsEmpty (JSV.obj [("publisherId", JSV.str "")])
      = GetIdResult.call "//id.liadm.com/idex/prebid/?" [] := by
  rfl

/-- C3 (amended): `getId` logs an error and returns undefined (no
network call) exactly when the publisher identifier is falsy AND not a
string (absent, `undefined`, `null`, `false`, `0`); an empty string and
any truthy non-string value pass the guard and a network call is issued. -/
theorem getId_guard_characterisation :
    ∀ prims configParams,
      isNoop (getId prims configParams)
        = (!truthy (publisherIdOf configParams) && !isStr (publisherIdOf configParams)) := by
  intro prims cp
  cases hc : (!truthy (publisherIdOf cp) && !isStr (publisherIdOf cp)) <;>
    simp [getId, hc, isNoop]

end LiveIntentId

namespace LiveConnect

open LiveConnectSpec

/-- C2: in state NOT_FIRED with consent denied, the hook performs no
storage write and no transport emission (the browser state is unchanged),
transitions to FIRED, and every subsequent invocation (any consent) is a
no-op. -/
theorem liveConnectHook_denied_consent :
    ∀ env raw p, p.isPixelFired = false →
      liveConnectHook env raw false p
        = (Except.ok (), { isPixelFired := true, browser := p.browser })
      ∧ ∀ consent,
          liveConnectHook env raw consent { isPixelFired := true, browser := p.browser }
            = (Except.ok (), { isPixelFired := true, browser := p.browser }) := by
  intro env raw p h
  constructor
  · simp [liveConnectHook, h, bmPure]
  · intro consent
    simp [liveConnectHook]

/-- Witness for `liveConnectHook_denied_consent` at a concrete unfired
state. -/
theorem liveConnectHook_denied_consent_witness :
    liveConnectHook envPlain (JSV.obj []) false { isPixelFired := false, browser := emptyBrowser }
      = (Except.ok (), { isPixelFired := true, browser := emptyBrowser }) :=
  (liveConnectHook_denied_consent envPlain (JSV.obj [])
    { isPixelFired := false, browser := emptyBrowser } rfl).1

/-- C6 (code bug): the persisted durable-identifier entry is NOT named
per configuration.  For the repository's own custom-name test input
`{storage: {name: 'custom_name'}}`, validation produces a structure with
no name field at all (identical to validating `{}`), and the persist
step writes the cookie under the hard-coded name `_lc2_duid`. -/
theorem storeDuid_ignores_configured_name :
    validateConfig rawCustomName = validateConfig (JSV.obj [])
    ∧ (storeDuid envPlain (validateConfig rawCustomName).storage "V" emptyBrowser).2.events
      = [StoreEv.setCookieEv "_lc2_duid" "V" "UTC1730" ".com"] := by
  constructor
  · decide
  · rfl

end LiveConnect

namespace LiveConnect

open LiveConnectSpec

/-- C7 (counterexample): three concrete local-storage reads contradict
the claim as stated.  (i) With an empty-string expiry marker the raw
stored payload `"a%20b"` is returned undecoded, although its decoding is
`"a b"`; (ii) with an expiry parsing to exactly `now` — hence not
strictly before now — the value is treated as absent; (iii) with the
expiry key absent the value is also treated as absent, not returned. -/
theorem getFromLocalStorage_counterexample :
    (getFromLocalStorage envPlain "k" lsNeverExpires).1 = Except.ok (some "a%20b")
    ∧ percentDecode "a%20b" = "a b"
    ∧ (getFromLocalStorage envBoundary "k" lsAtBoundary).1 = Except.ok none
    ∧ (getFromLocalStorage envPlain "k" lsNoExpKey).1 = Except.ok none := by
  refine ⟨rfl, rfl, rfl, rfl⟩

/-- C7 (amended): local-storage read semantics of the code.  With the
sibling expiry key holding the empty string the entry never expires and
its RAW (undecoded) value is returned; with the expiry key absent, or
unparseable, the value is treated as absent; with a parsed expiry at or
before now (not merely strictly before) the value is treated as absent
(never deleted — the state is unchanged throughout); only a strictly
future expiry returns the percent-decoded value. -/
theorem getFromLocalStorage_spec :
    ∀ env name σ, env.pol.lsGetThrows = false →
      (lsLookup σ.ls (name ++ "_exp") = some "" →
          getFromLocalStorage env name σ = (Except.ok (lsLookup σ.ls name), σ))
      ∧ (lsLookup σ.ls (name ++ "_exp") = none →
          getFromLocalStorage env name σ = (Except.ok none, σ))
      ∧ (∀ e, lsLookup σ.ls (name ++ "_exp") = some e → e ≠ "" →
          (env.parseDate e = none → getFromLocalStorage env name σ = (Except.ok none, σ))
          ∧ (∀ t, env.parseDate e = some t →
              (t ≤ env.now → getFromLocalStorage env name σ = (Except.ok none, σ))
              ∧ (env.now < t →
                  getFromLocalStorage env name σ
                    = (Except.ok (some (env.decodeURIComp (jsStrOfOpt (lsLookup σ.ls name)))), σ)))) := by
  intro env name σ h
  have hget : ∀ k, lsGetB env k σ = (Except.ok (lsLookup σ.ls k), σ) := by
    intro k; simp [lsGetB, h]
  refine ⟨?_, ?_, ?_⟩
  · intro hexp
    simp [getFromLocalStorage, bmBind, hget, hexp]
  · intro hexp
    simp [getFromLocalStorage, bmBind, hget, hexp, bmPure]
  · intro e hexp hne
    constructor
    · intro hpd
      simp [getFromLocalStorage, bmBind, hget, hexp, hne, hpd, bmPure]
    · intro t hpd
      constructor
      · intro hle
        simp [getFromLocalStorage, bmBind, hget, hexp, hne, hpd, bmPure]
        rw [if_neg (by omega)]
        simp [bmPure]
      · intro hlt
        simp [getFromLocalStorage, bmBind, hget, hexp, hne, hpd, bmPure]
        rw [if_pos hlt]
        simp [bmBind, hget, bmPure]

/-- Witness for `getFromLocalStorage_spec`: the never-expiring entry is
returned raw at a concrete store. -/
theorem getFromLocalStorage_spec_witness :
    getFromLocalStorage envPlain "k" lsNeverExpires
      = (Except.ok (lsLookup lsNeverExpires.ls "k"), lsNeverExpires) :=
  (getFromLocalStorage_spec envPlain "k" lsNeverExpires rfl).1 rfl

end LiveConnect


namespace LiveConnect

open LiveConnectSpec

/-- C4 (counterexample): with a throwing `utils.getCookie` and one
configured scraped identifier, the beacon assembly ABORTS with the
propagated storage exception — because `getFromCookieOrLocalStorage`
(used for scraped and provided-first-party lookups) has no `try/catch`,
unlike the durable-identifier read/write. -/
theorem sendLiveConnectPixel_aborts_on_storage_throw :
    (sendLiveConnectPixel envBadCookieGet rawScraped emptyBrowser).1
      = Except.error "cookie read failure"
    ∧ (getFromCookieOrLocalStorage envBadCookieGet "sid" emptyBrowser).1
      = Except.error "cookie read failure" := by
  exact ⟨rfl, rfl⟩

/-- C4 (amended): exceptions thrown by the storage primitives during
the durable-identifier read (`getStoredDuid`) and write (`storeDuid`)
are caught and logged and never propagate (the faulting read degrades to
"value absent"); but the shared cookie-or-local-storage lookup used for
scraped and provided-first-party identifiers performs no exception
handling, so a storage exception there propagates out of beacon
assembly. -/
theorem storage_exception_split :
    (∀ env t σ, ((getStoredDuid env t σ).1.isOk = true))
    ∧ (∀ env s v σ, ((storeDuid env s v σ).1.isOk = true))
    ∧ (∀ env σ, env.pol.cookieGetThrows = true →
        getStoredDuid env COOKIE σ = (Except.ok (none, ["cookie read failure"]), σ))
    ∧ (∀ env n σ, env.pol.cookieGetThrows = true →
        getFromCookieOrLocalStorage env n σ = (Except.error "cookie read failure", σ)) := by
  refine ⟨?_, ?_, ?_, ?_⟩
  · intro env t σ
    unfold getStoredDuid bmCatch
    rcases hm : (do
      let v ←
        if t = COOKIE then getCookieB env DUID_NAME
        else if t = LOCAL_STORAGE then getFromLocalStorage env DUID_NAME
        else pure none
      pure (v, []) : BM (Option String × List String)) σ with ⟨r, σ'⟩
    cases r <;> simp [bmPure, Except.isOk, Except.toBool]
  · intro env s v σ
    unfold storeDuid bmCatch
    rcases hm : (do
      let expiresStr := expiresString env s.expires
      if s.type = COOKIE then do
        let _ ← storeCookieOnEtldPlus1 env DUID_NAME v expiresStr
        pure []
      else if s.type = LOCAL_STORAGE then do
        lsSetB env (DUID_NAME ++ "_exp") expiresStr
        lsSetB env DUID_NAME (env.encodeURIComp v)
        pure []
      else pure [] : BM (List String)) σ with ⟨r, σ'⟩
    cases r <;> simp [bmPure, Except.isOk, Except.toBool]
  · intro env σ h
    simp [getStoredDuid, bmCatch, bmBind, getCookieB, h, bmPure]
  · intro env n σ h
    simp [getFromCookieOrLocalStorage, bmBind, getCookieB, h]

/-- Witness for `storage_exception_split` at the throwing environment. -/
theorem storage_exception_split_witness :
    getStoredDuid envBadCookieGet COOKIE emptyBrowser
      = (Except.ok (none, ["cookie read failure"]), emptyBrowser)
    ∧ getFromCookieOrLocalStorage envBadCookieGet "sid" emptyBrowser
      = (Except.error "cookie read failure", emptyBrowser) :=
  ⟨storage_exception_split.2.2.1 envBadCookieGet emptyBrowser rfl,
   storage_exception_split.2.2.2 envBadCookieGet "sid" emptyBrowser rfl⟩

end LiveConnect


namespace LiveIntentId

open LiveConnectSpec

/-- If the pattern occurs in `s`, replacing its first occurrence trades
one pattern length for one replacement length. -/
theorem replaceFirstAux_length (pat rep : List Char) :
    ∀ s : List Char, hasSubstr pat s = true →
      (replaceFirstAux pat rep s).length + pat.length = s.length + rep.length := by
  intro s
  induction s with
  | nil =>
    intro h
    have hpat : pat = [] := by
      cases pat with
      | nil => rfl
      | cons a t => simp [hasSubstr, List.isPrefixOf] at h
    subst hpat
    simp [replaceFirstAux]
  | cons c rest ih =>
    intro h
    by_cases hp : pat.isPrefixOf (c :: rest) = true
    · have hle : pat.length ≤ rest.length + 1 := by
        have := (List.isPrefixOf_iff_prefix.mp hp).length_le
        simpa using this
      simp only [replaceFirstAux, hp, if_true]
      simp [List.length_drop]
      omega
    · have hrest : hasSubstr pat rest = true := by
        simp only [hasSubstr, Bool.or_eq_true] at h
        rcases h with h | h
        · exact absurd h hp
        · exact h
      simp only [replaceFirstAux, hp]
      simp only [Bool.not_eq_true] at hp
      simp [hp]
      have := ih hrest
      omega

/-- The rewritten key differs from the identifier name whenever the name
contains the built-in `_li_duid` substring (the pattern and the
replacement have different lengths). -/
theorem duidQueryKey_changes (name : String)
    (h : hasSubstr LIVE_CONNECT_DUID_KEY.data name.data = true) :
    duidQueryKey name ≠ name := by
  intro heq
  have hd : replaceFirstAux LIVE_CONNECT_DUID_KEY.data DOMAIN_USER_ID_QUERY_PARAM_KEY.data name.data
      = name.data := congrArg String.data heq
  have hlen := replaceFirstAux_length LIVE_CONNECT_DUID_KEY.data
    DOMAIN_USER_ID_QUERY_PARAM_KEY.data name.data h
  rw [hd] at hlen
  have h8 : LIVE_CONNECT_DUID_KEY.data.length = 8 := rfl
  have h4 : DOMAIN_USER_ID_QUERY_PARAM_KEY.data.length = 4 := rfl
  omega

/-- Every key in an upserted association list is the upserted key or a
key already present. -/
theorem upsert_key_cases {acc : List (String × String)} {k v : String}
    {p : String × String} (hp : p ∈ upsert acc k v) :
    p.1 = k ∨ ∃ q ∈ acc, p.1 = q.1 := by
  unfold upsert at hp
  by_cases h : acc.any (fun q => q.1 == k) = true
  · rw [if_pos h] at hp
    rcases List.mem_map.mp hp with ⟨q, hq, hpq⟩
    by_cases h2 : q.1 == k
    · rw [if_pos h2] at hpq
      left; rw [← hpq]
    · rw [if_neg h2] at hpq
      right; exact ⟨q, hq, by rw [← hpq]⟩
  · rw [if_neg h] at hp
    rcases List.mem_append.mp hp with hp | hp
    · right; exact ⟨p, hp, rfl⟩
    · left
      have : p = (k, v) := List.mem_singleton.mp hp
      rw [this]

/-- Every key produced by the reduce comes from rewriting one of the
processed identifier names (or was already in the accumulator). -/
theorem gatherGo_keys (prims : ResolverPrims) :
    ∀ (ids : List String) (acc : List (String × String)) (k v : String),
      (k, v) ∈ gatherGo prims acc ids →
      (∃ q ∈ acc, k = q.1) ∨ ∃ i ∈ ids, k = duidQueryKey i := by
  intro ids
  induction ids with
  | nil =>
    intro acc k v h
    simp [gatherGo] at h
    left; exact ⟨(k, v), h, rfl⟩
  | cons i rest ih =>
    intro acc k v h
    simp only [gatherGo] at h
    rcases ih _ k v h with ⟨q, hq, hk⟩ | ⟨j, hj, hk⟩
    · by_cases ht : truthyStr (firstTruthy (prims.getCookie i) (prims.lsGet i)) = true
      · rw [if_pos ht] at hq
        rcases upsert_key_cases hq with h1 | ⟨q', hq', hk'⟩
        · right
          refine ⟨i, List.mem_cons_self i rest, ?_⟩
          rw [hk, h1]
        · left; exact ⟨q', hq', by rw [hk, hk']⟩
      · rw [if_neg ht] at hq
        left; exact ⟨q, hq, hk⟩
    · right; exact ⟨j, List.mem_cons_of_mem i hj, hk⟩

/-- C10: in `getId`, the outbound query-string key of every gathered
identifier is the identifier name with the FIRST occurrence of
`_li_duid` replaced by `duid`; hence the built-in identifier is sent
under the key `duid`, and any configured identifier name containing
`_li_duid` as a substring is sent under a rewritten key rather than its
own name. -/
theorem getId_duid_key_rewrite :
    duidQueryKey LIVE_CONNECT_DUID_KEY = DOMAIN_USER_ID_QUERY_PARAM_KEY
    ∧ (∀ name : String, hasSubstr LIVE_CONNECT_DUID_KEY.data name.data = true →
        duidQueryKey name ≠ name)
    ∧ (∀ prims names k v, (k, v) ∈ gatherIdentifiers prims names →
        ∃ i ∈ names ++ [LIVE_CONNECT_DUID_KEY], k = duidQueryKey i) := by
  refine ⟨rfl, duidQueryKey_changes, ?_⟩
  intro prims names k v h
  rcases gatherGo_keys prims _ [] k v h with ⟨q, hq, _⟩ | h2
  · simp at hq
  · exact h2

/-- Witness for `getId_duid_key_rewrite`: a configured name containing
`_li_duid` is rewritten, and the key gathered for the sole built-in
identifier is `duid`. -/
theorem getId_duid_key_rewrite_witness :
    duidQueryKey "x_li_duid_y" ≠ "x_li_duid_y"
    ∧ "duid" = duidQueryKey LIVE_CONNECT_DUID_KEY := by
  constructor
  · exact getId_duid_key_rewrite.2.1 "x_li_duid_y" (by decide)
  · obtain ⟨i, hi, h⟩ := getId_duid_key_rewrite.2.2 primsDuidOnly [] "duid" "V" (by decide)
    have hiv : i = LIVE_CONNECT_DUID_KEY := by simpa using hi
    rw [← hiv]
    exact h

end LiveIntentId


namespace LiveConnect

open LiveConnectSpec

/-- One iteration of the domain walk under non-throwing primitives:
one write attempt, then stop if the read-back matches, else recurse. -/
theorem cookieWalk_cons (env : LCEnv) (name value expiresStr d : String)
    (ds : List String) (σ : BrowserSt)
    (hg : env.pol.cookieGetThrows = false) (hs : env.pol.cookieSetThrows = false) :
    cookieWalk env name value expiresStr (d :: ds) σ
      = (if cookieLookup (afterAttempt env name value expiresStr d σ).cookies name
            = some value
         then (Except.ok [d], afterAttempt env name value expiresStr d σ)
         else bmBind (cookieWalk env name value expiresStr ds)
                (fun t => bmPure (d :: t)) (afterAttempt env name value expiresStr d σ)) := by
  simp only [cookieWalk, bm_bind_def, bm_pure_def, bmBind, setCookieB, getCookieB, hs, hg,
    afterAttempt, Bool.false_eq_true, if_false]
  split <;> split <;> rfl



/-- A rejected write attempt leaves the cookie jar untouched. -/
theorem afterAttempt_reject_cookies (env : LCEnv) (name value expiresStr d : String)
    (σ : BrowserSt) (hd : env.pol.acceptsDomain d = false) :
    (afterAttempt env name value expiresStr d σ).cookies = σ.cookies := by
  simp [afterAttempt, hd]

/-- Reading back the name just written into the jar gives the written
value. -/
theorem cookieLookup_update_self (jar : List (String × String × String))
    (n v e : String) : cookieLookup (cookieUpdate jar n v e) n = some v := by
  unfold cookieUpdate
  by_cases h : jar.any (fun q => q.1 == n) = true
  · rw [if_pos h]
    induction jar with
    | nil => simp at h
    | cons hd tl ih =>
      by_cases h2 : hd.1 == n
      · simp only [List.map_cons, if_pos h2]
        simp [cookieLookup]
      · simp only [List.any_cons, Bool.or_eq_true] at h
        rcases h with h | h
        · exact absurd h h2
        · simp only [List.map_cons, if_neg h2]
          have := ih h
          simpa [cookieLookup, List.find?, h2] using this
  · rw [if_neg h]
    induction jar with
    | nil => simp [cookieLookup, List.find?]
    | cons hd tl ih =>
      simp only [List.any_cons, Bool.or_eq_true, not_or] at h
      simp only [List.cons_append]
      have h1 : (hd.1 == n) = false := by
        rcases h with ⟨h1, _⟩
        simpa using h1
      simp only [cookieLookup, List.find?, h1]
      have := ih (by simpa using h.2)
      simpa [cookieLookup] using this

/-- If the browser rejects every candidate domain (and the jar never
held the target value), the walk attempts every candidate exactly once
and returns the full trace. -/
theorem cookieWalk_all_reject (env : LCEnv) (name value expiresStr : String)
    (hg : env.pol.cookieGetThrows = false) (hs : env.pol.cookieSetThrows = false) :
    ∀ (ds : List String) (σ : BrowserSt),
      cookieLookup σ.cookies name ≠ some value →
      (∀ d ∈ ds, env.pol.acceptsDomain d = false) →
      cookieWalk env name value expiresStr ds σ
        = (Except.ok ds,
           { σ with events := σ.events
              ++ ds.map (fun d => StoreEv.setCookieEv name value expiresStr d) }) := by
  intro ds
  induction ds with
  | nil => intro σ hne hrej; simp [cookieWalk, bmPure]
  | cons d rest ih =>
    intro σ hne hrej
    have hd : env.pol.acceptsDomain d = false := hrej d (List.mem_cons_self d rest)
    rw [cookieWalk_cons env name value expiresStr d rest σ hg hs]
    have hcook : (afterAttempt env name value expiresStr d σ).cookies = σ.cookies :=
      afterAttempt_reject_cookies env name value expiresStr d σ hd
    rw [if_neg (by rw [hcook]; exact hne)]
    have hr := ih (afterAttempt env name value expiresStr d σ)
      (by rw [hcook]; exact hne)
      (fun x hx => hrej x (List.mem_cons_of_mem d hx))
    rw [bmBind, hr]
    simp [bmPure, afterAttempt, hd, List.append_assoc]

/-- The walk stops at the first accepted candidate: one write per
rejected candidate before it, then the accepted write, then no further
attempts. -/
theorem cookieWalk_first_accept (env : LCEnv) (name value expiresStr : String)
    (hg : env.pol.cookieGetThrows = false) (hs : env.pol.cookieSetThrows = false) :
    ∀ (ds₁ : List String) (d : String) (ds₂ : List String) (σ : BrowserSt),
      cookieLookup σ.cookies name ≠ some value →
      (∀ x ∈ ds₁, env.pol.acceptsDomain x = false) →
      env.pol.acceptsDomain d = true →
      cookieWalk env name value expiresStr (ds₁ ++ d :: ds₂) σ
        = (Except.ok (ds₁ ++ [d]),
           { σ with
             cookies := cookieUpdate σ.cookies name value expiresStr
             events := σ.events
               ++ (ds₁ ++ [d]).map (fun x => StoreEv.setCookieEv name value expiresStr x) }) := by
  intro ds₁
  induction ds₁ with
  | nil =>
    intro d ds₂ σ hne hrej hacc
    rw [List.nil_append, cookieWalk_cons env name value expiresStr d ds₂ σ hg hs]
    have hcook : (afterAttempt env name value expiresStr d σ).cookies
        = cookieUpdate σ.cookies name value expiresStr := by
      simp [afterAttempt, hacc]
    rw [if_pos (by rw [hcook]; exact cookieLookup_update_self σ.cookies name value expiresStr)]
    simp [afterAttempt, hacc]
  | cons x rest ih =>
    intro d ds₂ σ hne hrej hacc
    have hx : env.pol.acceptsDomain x = false := hrej x (List.mem_cons_self x rest)
    rw [List.cons_append, cookieWalk_cons env name value expiresStr x (rest ++ d :: ds₂) σ hg hs]
    have hcook : (afterAttempt env name value expiresStr x σ).cookies = σ.cookies :=
      afterAttempt_reject_cookies env name value expiresStr x σ hx
    rw [if_neg (by rw [hcook]; exact hne)]
    have hr := ih d ds₂ (afterAttempt env name value expiresStr x σ)
      (by rw [hcook]; exact hne)
      (fun y hy => hrej y (List.mem_cons_of_mem x hy))
      hacc
    rw [bmBind, hr]
    simp [bmPure, afterAttempt, hx, List.append_assoc]



/-- Length of a dot-join grows by the added label plus separator. -/
theorem joinDot_cons_cons_length (p q : String) (rest : List String) :
    (joinDot (p :: q :: rest)).length = p.length + 1 + (joinDot (q :: rest)).length := by
  have hdot : ("." : String).length = 1 := rfl
  show (p ++ "." ++ joinDot (q :: rest)).length = _
  rw [String.length_append, String.length_append, hdot]

/-- Every candidate domain is at most as long as the full hostname
candidate. -/
theorem domainCandidates_mem_le :
    ∀ (parts : List String) (d : String), d ∈ domainCandidates parts →
      d.length ≤ 1 + (joinDot parts).length := by
  intro parts
  induction parts with
  | nil => intro d hd; simp [domainCandidates] at hd
  | cons p rest ih =>
    intro d hd
    simp only [domainCandidates, List.mem_append, List.mem_singleton] at hd
    rcases hd with hd | hd
    · have h1 := ih d hd
      cases rest with
      | nil => simp [domainCandidates] at hd
      | cons q rs =>
        have h2 := joinDot_cons_cons_length p q rs
        omega
    · rw [hd, String.length_append]
      have hdot : ("." : String).length = 1 := rfl
      omega

/-- The candidate domains are pairwise distinct (strictly growing
length), so the walk performs at most one write per candidate domain. -/
theorem domainCandidates_nodup : ∀ parts : List String,
    (domainCandidates parts).Nodup := by
  intro parts
  induction parts with
  | nil => simp [domainCandidates]
  | cons p rest ih =>
    simp only [domainCandidates]
    rw [List.nodup_append]
    refine ⟨ih, List.nodup_singleton _, ?_⟩
    intro a ha
    simp only [List.mem_singleton]
    intro hEq
    have h1 := domainCandidates_mem_le rest a ha
    have h2 : a.length = ("." ++ joinDot (p :: rest)).length := by rw [hEq]
    cases rest with
    | nil => simp [domainCandidates] at ha
    | cons q rs =>
      have h3 := joinDot_cons_cons_length p q rs
      rw [String.length_append] at h2
      have hdot : ("." : String).length = 1 := rfl
      omega

/-- A non-empty hostname yields at least one candidate. -/
theorem domainCandidates_ne_nil (p : String) (rest : List String) :
    domainCandidates (p :: rest) ≠ [] := by
  simp [domainCandidates]

/-- The first candidate attempted is the broadest scope: a dot
followed by the last DNS label alone. -/
theorem domainCandidates_head :
    ∀ (parts : List String), parts ≠ [] →
      (domainCandidates parts).head? = parts.getLast?.map (fun q => "." ++ q) := by
  intro parts
  induction parts with
  | nil => intro h; exact absurd rfl h
  | cons p rest ih =>
    intro _
    cases rest with
    | nil => simp [domainCandidates, joinDot]
    | cons q rs =>
      have hne : domainCandidates (q :: rs) ≠ [] := domainCandidates_ne_nil q rs
      obtain ⟨x, xs, hxx⟩ := List.exists_cons_of_ne_nil hne
      have hh := ih (by simp)
      rw [hxx] at hh
      simp only [List.head?_cons] at hh
      show (domainCandidates (q :: rs) ++ ["." ++ joinDot (p :: q :: rs)]).head? = _
      rw [hxx, List.cons_append, List.head?_cons, List.getLast?_cons_cons, ← hh]



/-- C9: if the browser reports cookies disabled no cookie write occurs
at all; otherwise the walk starts at the broadest domain (dot plus the
final DNS label) and walks down through each DNS label combination —
a duplicate-free candidate list, at most one write per candidate — and
stops as soon as a read-back returns exactly the written value, or the
candidate list is exhausted. -/
theorem storeCookieOnEtldPlus1_walk :
    ∀ (env : LCEnv) (name value expiresStr : String) (σ : BrowserSt),
      env.pol.cookieGetThrows = false → env.pol.cookieSetThrows = false →
      (env.pol.cookiesEnabled = false →
        storeCookieOnEtldPlus1 env name value expiresStr σ = (Except.ok [], σ))
      ∧ (domainCandidates env.hostParts).Nodup
      ∧ (env.hostParts ≠ [] →
          (domainCandidates env.hostParts).head?
            = env.hostParts.getLast?.map (fun q => "." ++ q))
      ∧ (env.pol.cookiesEnabled = true → cookieLookup σ.cookies name ≠ some value →
          ((∀ d ∈ domainCandidates env.hostParts, env.pol.acceptsDomain d = false) →
            storeCookieOnEtldPlus1 env name value expiresStr σ
              = (Except.ok (domainCandidates env.hostParts),
                 { σ with events := (σ.events ++ (domainCandidates env.hostParts).map
                     (fun d => StoreEv.setCookieEv name value expiresStr d)) }))
          ∧ (∀ ds₁ d ds₂, domainCandidates env.hostParts = ds₁ ++ d :: ds₂ →
              (∀ x ∈ ds₁, env.pol.acceptsDomain x = false) →
              env.pol.acceptsDomain d = true →
              storeCookieOnEtldPlus1 env name value expiresStr σ
                = (Except.ok (ds₁ ++ [d]),
                   { σ with
                     cookies := cookieUpdate σ.cookies name value expiresStr
                     events := (σ.events ++ (ds₁ ++ [d]).map
                       (fun x => StoreEv.setCookieEv name value expiresStr x)) }))) := by
  intro env name value expiresStr σ hg hs
  refine ⟨?_, domainCandidates_nodup env.hostParts, domainCandidates_head env.hostParts, ?_⟩
  · intro hdis
    simp [storeCookieOnEtldPlus1, hdis, bmPure]
  · intro hen hne
    constructor
    · intro hrej
      simp only [storeCookieOnEtldPlus1, hen, Bool.not_true, Bool.false_eq_true, if_false]
      exact cookieWalk_all_reject env name value expiresStr hg hs _ σ hne hrej
    · intro ds₁ d ds₂ hsplit hrej hacc
      simp only [storeCookieOnEtldPlus1, hen, Bool.not_true, Bool.false_eq_true, if_false]
      rw [hsplit]
      exact cookieWalk_first_accept env name value expiresStr hg hs ds₁ d ds₂ σ hne hrej hacc

/-- Witness for `storeCookieOnEtldPlus1_walk`: a browser rejecting the
public-suffix write but accepting `.example.com` stops there. -/
theorem storeCookieOnEtldPlus1_walk_witness :
    storeCookieOnEtldPlus1 envSelective "_lc2_duid" "V" "E" emptyBrowser
      = (Except.ok ([".com"] ++ [".example.com"]),
         { emptyBrowser with
           cookies := cookieUpdate emptyBrowser.cookies "_lc2_duid" "V" "E"
           events := (emptyBrowser.events ++ ([".com"] ++ [".example.com"]).map
             (fun x => StoreEv.setCookieEv "_lc2_duid" "V" "E" x)) }) :=
  ((storeCookieOnEtldPlus1_walk envSelective "_lc2_duid" "V" "E" emptyBrowser rfl rfl).2.2.2
      rfl (by decide)).2
    [".com"] ".example.com" [".www.example.com"] (by decide) (by decide) (by decide)

end LiveConnect


namespace LiveConnect

open LiveConnectSpec

theorem getFromLocalStorage_ok (env : LCEnv) (n : String) (σ : BrowserSt)
    (hl : env.pol.lsGetThrows = false) :
    ∃ v, getFromLocalStorage env n σ = (Except.ok v, σ) := by
  have hget : ∀ k, lsGetB env k σ = (Except.ok (lsLookup σ.ls k), σ) := by
    intro k; simp [lsGetB, hl]
  rcases hv : lsLookup σ.ls (n ++ "_exp") with _ | e
  · exact ⟨none, by simp [getFromLocalStorage, bmBind, hget, hv, bmPure]⟩
  · by_cases he : e = ""
    · subst he
      exact ⟨lsLookup σ.ls n, by simp [getFromLocalStorage, bmBind, hget, hv]⟩
    · rcases hpd : env.parseDate e with _ | t
      · exact ⟨none, by simp [getFromLocalStorage, bmBind, hget, hv, he, hpd, bmPure]⟩
      · by_cases hfut : t - env.now > 0
        · refine ⟨some (env.decodeURIComp (jsStrOfOpt (lsLookup σ.ls n))), ?_⟩
          simp only [getFromLocalStorage, bm_bind_def, bmBind, hget, hv, he, hpd, bmPure]
          rw [if_pos (by omega)]
          simp [bmBind, hget, bmPure]
        · refine ⟨none, ?_⟩
          simp only [getFromLocalStorage, bm_bind_def, bmBind, hget, hv, he, hpd, bmPure]
          rw [if_neg (by omega)]
          simp [bmPure]

/-- A non-throwing stored-duid read returns `ok` with an empty error log
and leaves the state unchanged. -/
theorem getStoredDuid_ok (env : LCEnv) (t : String) (σ : BrowserSt)
    (hg : env.pol.cookieGetThrows = false) (hl : env.pol.lsGetThrows = false) :
    ∃ v, getStoredDuid env t σ = (Except.ok (v, []), σ) := by
  unfold getStoredDuid
  by_cases ht : t = COOKIE
  · refine ⟨cookieLookup σ.cookies DUID_NAME, ?_⟩
    simp [bmCatch, bmBind, bmPure, ht, getCookieB, hg]
  · by_cases ht2 : t = LOCAL_STORAGE
    · obtain ⟨v, hv⟩ := getFromLocalStorage_ok env DUID_NAME σ hl
      refine ⟨v, ?_⟩
      subst ht2
      rw [if_neg ht, if_pos rfl]
      simp [bmCatch, bmBind, bmPure, hv]
    · refine ⟨none, ?_⟩
      simp [bmCatch, bmBind, bmPure, ht, ht2]

/-- The stored-duid cookie read, explicitly. -/
theorem getStoredDuid_cookie (env : LCEnv) (σ : BrowserSt)
    (hg : env.pol.cookieGetThrows = false) :
    getStoredDuid env COOKIE σ
      = (Except.ok (cookieLookup σ.cookies DUID_NAME, []), σ) := by
  simp [getStoredDuid, bmCatch, bmBind, bmPure, getCookieB, hg]

/-- The stored-duid local-storage read of a never-expiring entry. -/
theorem getStoredDuid_html5_never_expires (env : LCEnv) (σ : BrowserSt)
    (hl : env.pol.lsGetThrows = false)
    (hexp : lsLookup σ.ls (DUID_NAME ++ "_exp") = some "") :
    getStoredDuid env LOCAL_STORAGE σ
      = (Except.ok (lsLookup σ.ls DUID_NAME, []), σ) := by
  have hget : ∀ k, lsGetB env k σ = (Except.ok (lsLookup σ.ls k), σ) := by
    intro k; simp [lsGetB, hl]
  unfold getStoredDuid
  rw [if_neg (by decide : ¬ LOCAL_STORAGE = COOKIE), if_pos rfl]
  simp [bmCatch, bmBind, getFromLocalStorage, hget, hexp, bmPure]



/-- The walk stops at the first candidate when the written name already
reads back as the written value (pre-existing cookie) or the write is
accepted. -/
theorem cookieWalk_head_stop (env : LCEnv) (n v e d : String) (ds : List String)
    (σ : BrowserSt) (hg : env.pol.cookieGetThrows = false)
    (hs : env.pol.cookieSetThrows = false)
    (hstop : env.pol.acceptsDomain d = true ∨ cookieLookup σ.cookies n = some v) :
    cookieWalk env n v e (d :: ds) σ = (Except.ok [d], afterAttempt env n v e d σ) := by
  rw [cookieWalk_cons env n v e d ds σ hg hs]
  rw [if_pos ?_]
  unfold afterAttempt
  rcases hstop with hacc | hpre
  · simp only [hacc, if_pos rfl]
    exact cookieLookup_update_self σ.cookies n v e
  · by_cases hacc : env.pol.acceptsDomain d = true
    · simp only [hacc, if_pos rfl]
      exact cookieLookup_update_self σ.cookies n v e
    · simp only [if_neg hacc]
      exact hpre

/-- `storeDuid` on a local-storage configuration: the expiry sibling is
written first, then the encoded value. -/
theorem storeDuid_html5 (env : LCEnv) (st : StorageCfg) (v : String) (σ : BrowserSt)
    (hset : env.pol.lsSetThrows = false) (hty : st.type = LOCAL_STORAGE) :
    storeDuid env st v σ
      = (Except.ok [],
         { σ with
           ls := lsUpdate (lsUpdate σ.ls (DUID_NAME ++ "_exp") (expiresString env st.expires))
             DUID_NAME (env.encodeURIComp v)
           events := (σ.events
             ++ [StoreEv.lsSetEv (DUID_NAME ++ "_exp") (expiresString env st.expires),
                 StoreEv.lsSetEv DUID_NAME (env.encodeURIComp v)]) }) := by
  unfold storeDuid
  rw [hty, if_neg (by decide : ¬ LOCAL_STORAGE = COOKIE), if_pos rfl]
  simp [bmCatch, bmBind, lsSetB, hset, bmPure]

/-- `storeDuid` on a cookie configuration, given the walk's result. -/
theorem storeDuid_cookie_of_walk (env : LCEnv) (st : StorageCfg) (v : String)
    (σ σ' : BrowserSt) (tr : List String) (hty : st.type = COOKIE)
    (hen : env.pol.cookiesEnabled = true)
    (hw : cookieWalk env DUID_NAME v (expiresString env st.expires)
            (domainCandidates env.hostParts) σ = (Except.ok tr, σ')) :
    storeDuid env st v σ = (Except.ok [], σ') := by
  unfold storeDuid
  rw [hty, if_pos rfl]
  simp only [storeCookieOnEtldPlus1, hen, Bool.not_true, Bool.false_eq_true, if_false]
  simp [bmCatch, bmBind, hw, bmPure]

/-- `storeDuid` on a cookie configuration with cookies disabled: no
write at all. -/
theorem storeDuid_cookie_disabled (env : LCEnv) (st : StorageCfg) (v : String)
    (σ : BrowserSt) (hty : st.type = COOKIE) (hen : env.pol.cookiesEnabled = false) :
    storeDuid env st v σ = (Except.ok [], σ) := by
  unfold storeDuid
  rw [hty, if_pos rfl]
  simp [storeCookieOnEtldPlus1, hen, bmCatch, bmBind, bmPure]



/-- C5: firing the beacon with a pre-existing valid, non-expired stored
durable identifier generates no new identifier: the resolution returns
exactly the stored value, and the persist step is performed again for
that same value with a freshly computed expiry (for html5 storage the
value key and its `_exp` sibling are rewritten; for cookie storage one
domain-scoped write attempt carrying the fresh expiry is issued, the
read-back matches and the walk stops). -/
theorem getDuid_reuses_stored :
    ∀ (env : LCEnv) (cfg : ValidCfg) (σ : BrowserSt) (s : String), polNoThrow env.pol →
      (cfg.storage.type = LOCAL_STORAGE →
        lsLookup σ.ls (DUID_NAME ++ "_exp") = some "" →
        lsLookup σ.ls DUID_NAME = some s → s ≠ "" →
        getDuid env cfg σ
          = (Except.ok (s, []),
             { σ with
               ls := lsUpdate (lsUpdate σ.ls (DUID_NAME ++ "_exp")
                 (expiresString env cfg.storage.expires)) DUID_NAME (env.encodeURIComp s)
               events := (σ.events
                 ++ [StoreEv.lsSetEv (DUID_NAME ++ "_exp") (expiresString env cfg.storage.expires),
                     StoreEv.lsSetEv DUID_NAME (env.encodeURIComp s)]) }))
      ∧ (cfg.storage.type = COOKIE →
        cookieLookup σ.cookies DUID_NAME = some s → s ≠ "" →
        env.pol.cookiesEnabled = true →
        ∀ d ds, domainCandidates env.hostParts = d :: ds →
        getDuid env cfg σ
          = (Except.ok (s, []),
             afterAttempt env DUID_NAME s (expiresString env cfg.storage.expires) d σ)) := by
  intro env cfg σ s hpol
  obtain ⟨hg, hs, hl, hset⟩ := hpol
  constructor
  · intro hty hexp hval hne
    have h1 : getStoredDuid env cfg.storage.type σ
        = (Except.ok (some s, []), σ) := by
      rw [hty, getStoredDuid_html5_never_expires env σ hl hexp, hval]
    have h2 := storeDuid_html5 env cfg.storage s σ hset hty
    simp only [getDuid, bm_bind_def, bm_pure_def, bmBind, h1]
    simp only [hne, if_neg hne]
    simp [h2, bmPure]
  · intro hty hval hne hen d ds hcand
    have h1 : getStoredDuid env cfg.storage.type σ
        = (Except.ok (some s, []), σ) := by
      rw [hty, getStoredDuid_cookie env σ hg, hval]
    have hw : cookieWalk env DUID_NAME s (expiresString env cfg.storage.expires)
        (domainCandidates env.hostParts) σ
        = (Except.ok [d], afterAttempt env DUID_NAME s (expiresString env cfg.storage.expires) d σ) := by
      rw [hcand]
      exact cookieWalk_head_stop env DUID_NAME s (expiresString env cfg.storage.expires) d ds σ
        hg hs (Or.inr hval)
    have h2 := storeDuid_cookie_of_walk env cfg.storage s σ _ [d] hty hen hw
    simp only [getDuid, bm_bind_def, bm_pure_def, bmBind, h1]
    simp only [hne, if_neg hne]
    simp [h2, bmPure]



theorem countPixel_append (a b : List StoreEv) :
    countPixel (a ++ b) = countPixel a + countPixel b := by
  simp [countPixel, List.filter_append]

theorem countLsDuid_append (a b : List StoreEv) :
    countLsDuid (a ++ b) = countLsDuid a + countLsDuid b := by
  simp [countLsDuid, List.filter_append]

theorem countCookieDuid_append (a b : List StoreEv) :
    countCookieDuid (a ++ b) = countCookieDuid a + countCookieDuid b := by
  simp [countCookieDuid, List.filter_append]

/-- A non-throwing walk succeeds, leaves local storage alone, and logs
exactly one write attempt per domain of its trace. -/
theorem cookieWalk_ok (env : LCEnv) (n v e : String)
    (hg : env.pol.cookieGetThrows = false) (hs : env.pol.cookieSetThrows = false) :
    ∀ (ds : List String) (σ : BrowserSt),
      ∃ tr σ', cookieWalk env n v e ds σ = (Except.ok tr, σ')
        ∧ σ'.ls = σ.ls
        ∧ σ'.events = σ.events ++ tr.map (fun d => StoreEv.setCookieEv n v e d) := by
  intro ds
  induction ds with
  | nil =>
    intro σ
    exact ⟨[], σ, by simp [cookieWalk, bmPure], rfl, by simp⟩
  | cons d rest ih =>
    intro σ
    rw [cookieWalk_cons env n v e d rest σ hg hs]
    by_cases hstop : cookieLookup (afterAttempt env n v e d σ).cookies n = some v
    · refine ⟨[d], afterAttempt env n v e d σ, by rw [if_pos hstop], by simp [afterAttempt], ?_⟩
      simp [afterAttempt]
    · obtain ⟨tr, σ', hw, hls, hev⟩ := ih (afterAttempt env n v e d σ)
      refine ⟨d :: tr, σ', ?_, by simpa [afterAttempt] using hls, ?_⟩
      · rw [if_neg hstop, bmBind, hw]
        simp [bmPure]
      · rw [hev]
        simp [afterAttempt, List.append_assoc]

/-- A non-throwing `storeDuid` succeeds and its effect delta contains no
pixel emission; on local storage it writes the value key exactly once;
on cookies it writes only duid cookie-attempts, exactly one when every
domain is accepted and a candidate exists. -/
theorem storeDuid_ok (env : LCEnv) (st : StorageCfg) (v : String) (σ : BrowserSt)
    (hg : env.pol.cookieGetThrows = false) (hs : env.pol.cookieSetThrows = false)
    (hset : env.pol.lsSetThrows = false) :
    ∃ δ σ', storeDuid env st v σ = (Except.ok [], σ')
      ∧ σ'.events = σ.events ++ δ
      ∧ countPixel δ = 0
      ∧ (st.type = LOCAL_STORAGE → countLsDuid δ = 1)
      ∧ (st.type = COOKIE → env.pol.cookiesEnabled = true →
          (∀ dm, env.pol.acceptsDomain dm = true) →
          ∀ d ds, domainCandidates env.hostParts = d :: ds → countCookieDuid δ = 1) := by
  by_cases hty : st.type = COOKIE
  · by_cases hen : env.pol.cookiesEnabled = true
    · by_cases hacc : ∀ dm, env.pol.acceptsDomain dm = true
      · rcases hcand : domainCandidates env.hostParts with _ | ⟨d, ds⟩
        · -- no candidates: empty walk
          refine ⟨[], σ, ?_, by simp, by simp [countPixel], ?_, ?_⟩
          · exact storeDuid_cookie_of_walk env st v σ σ []
              hty hen (by rw [hcand]; simp [cookieWalk, bmPure])
          · intro h2; rw [hty] at h2; exact absurd h2.symm (by decide)
          · intro _ _ _ d ds hcand2; exact absurd hcand2 (by simp)
        · -- accepted head: walk stops after one attempt
          have hw := cookieWalk_head_stop env DUID_NAME v (expiresString env st.expires)
            d ds σ hg hs (Or.inl (hacc d))
          refine ⟨[StoreEv.setCookieEv DUID_NAME v (expiresString env st.expires) d],
            afterAttempt env DUID_NAME v (expiresString env st.expires) d σ, ?_, ?_, ?_, ?_, ?_⟩
          · exact storeDuid_cookie_of_walk env st v σ _ [d] hty hen (by rw [hcand]; exact hw)
          · simp [afterAttempt]
          · simp [countPixel]
          · intro h2; rw [hty] at h2; exact absurd h2.symm (by decide)
          · intro _ _ _ d' ds' hcand2
            simp [countCookieDuid, DUID_NAME]
      · -- some domain rejected: general walk
        obtain ⟨tr, σ', hw, _, hev⟩ := cookieWalk_ok env DUID_NAME v
          (expiresString env st.expires) hg hs (domainCandidates env.hostParts) σ
        refine ⟨tr.map (fun d => StoreEv.setCookieEv DUID_NAME v (expiresString env st.expires) d),
          σ', storeDuid_cookie_of_walk env st v σ σ' tr hty hen hw, hev, ?_, ?_, ?_⟩
        · rw [countPixel]
          rw [List.filter_eq_nil_iff.mpr]
          · rfl
          · intro a ha
            rcases List.mem_map.mp ha with ⟨x, _, hx⟩
            rw [← hx]; simp
        · intro h2; rw [hty] at h2; exact absurd h2.symm (by decide)
        · intro _ _ hacc2 _ _ _; exact absurd hacc2 hacc
    · -- cookies disabled
      refine ⟨[], σ, storeDuid_cookie_disabled env st v σ hty (by simpa using hen),
        by simp, by simp [countPixel], ?_, ?_⟩
      · intro h2; rw [hty] at h2; exact absurd h2.symm (by decide)
      · intro _ hen2 _ _ _ _; exact absurd hen2 hen
  · by_cases hty2 : st.type = LOCAL_STORAGE
    · have h2 := storeDuid_html5 env st v σ hset hty2
      refine ⟨[StoreEv.lsSetEv (DUID_NAME ++ "_exp") (expiresString env st.expires),
        StoreEv.lsSetEv DUID_NAME (env.encodeURIComp v)], _, h2, by simp, by simp [countPixel],
        ?_, ?_⟩
      · intro _
        simp [countLsDuid, DUID_NAME]
      · intro hc; exact absurd hc hty
    · refine ⟨[], σ, ?_, by simp, by simp [countPixel], fun hc => absurd hc hty2,
        fun hc => absurd hc hty⟩
      unfold storeDuid
      rw [if_neg hty, if_neg hty2]
      simp [bmCatch, bmBind, bmPure]



/-- A non-throwing `getDuid` succeeds with an empty error log; its
effect delta has no pixel, one local-storage duid write on html5
storage, one duid cookie attempt on all-accepted cookie storage. -/
theorem getDuid_ok (env : LCEnv) (cfg : ValidCfg) (σ : BrowserSt)
    (hg : env.pol.cookieGetThrows = false) (hs : env.pol.cookieSetThrows = false)
    (hl : env.pol.lsGetThrows = false) (hset : env.pol.lsSetThrows = false) :
    ∃ u δ σ', getDuid env cfg σ = (Except.ok (u, []), σ')
      ∧ σ'.events = σ.events ++ δ
      ∧ countPixel δ = 0
      ∧ (cfg.storage.type = LOCAL_STORAGE → countLsDuid δ = 1)
      ∧ (cfg.storage.type = COOKIE → env.pol.cookiesEnabled = true →
          (∀ dm, env.pol.acceptsDomain dm = true) →
          ∀ d ds, domainCandidates env.hostParts = d :: ds → countCookieDuid δ = 1) := by
  obtain ⟨v0, hst⟩ := getStoredDuid_ok env cfg.storage.type σ hg hl
  rcases v0 with _ | s
  · obtain ⟨δ, σ', hsd, hev, hp, hls, hck⟩ :=
      storeDuid_ok env cfg.storage env.ulidFresh σ hg hs hset
    refine ⟨env.ulidFresh, δ, σ', ?_, hev, hp, hls, hck⟩
    simp only [getDuid, bm_bind_def, bm_pure_def, bmBind, hst, hsd, bmPure]
    simp
  · by_cases hse : s = ""
    · subst hse
      obtain ⟨δ, σ', hsd, hev, hp, hls, hck⟩ :=
        storeDuid_ok env cfg.storage env.ulidFresh σ hg hs hset
      refine ⟨env.ulidFresh, δ, σ', ?_, hev, hp, hls, hck⟩
      simp only [getDuid, bm_bind_def, bm_pure_def, bmBind, hst, bmPure]
      simp [hsd, bmPure]

    · obtain ⟨δ, σ', hsd, hev, hp, hls, hck⟩ :=
        storeDuid_ok env cfg.storage s σ hg hs hset
      refine ⟨s, δ, σ', ?_, hev, hp, hls, hck⟩
      simp only [getDuid, bm_bind_def, bm_pure_def, bmBind, hst, bmPure]
      simp [hse, hsd, bmPure]

/-- A non-throwing generic identifier lookup succeeds without touching
the state. -/
theorem getFromCookieOrLocalStorage_ok (env : LCEnv) (n : String) (σ : BrowserSt)
    (hg : env.pol.cookieGetThrows = false) (hl : env.pol.lsGetThrows = false) :
    ∃ v, getFromCookieOrLocalStorage env n σ = (Except.ok v, σ) := by
  have hgc : getCookieB env n σ = (Except.ok (cookieLookup σ.cookies n), σ) := by
    simp [getCookieB, hg]
  have hlg : lsGetB env n σ = (Except.ok (lsLookup σ.ls n), σ) := by
    simp [lsGetB, hl]
  rcases hv : cookieLookup σ.cookies n with _ | c
  · exact ⟨lsLookup σ.ls n, by simp [getFromCookieOrLocalStorage, bmBind, hgc, hv, hlg]⟩
  · by_cases hc : c = ""
    · subst hc
      exact ⟨lsLookup σ.ls n, by simp [getFromCookieOrLocalStorage, bmBind, hgc, hv, hlg]⟩
    · exact ⟨some c, by simp [getFromCookieOrLocalStorage, bmBind, hgc, hv, hc, bmPure]⟩

/-- A non-throwing provided-first-party lookup succeeds without touching
the state. -/
theorem getProvidedFpiQueryParams_ok (env : LCEnv) (cfg : ValidCfg) (σ : BrowserSt)
    (hg : env.pol.cookieGetThrows = false) (hl : env.pol.lsGetThrows = false) :
    ∃ q, getProvidedFpiQueryParams env cfg σ = (Except.ok q, σ) := by
  obtain ⟨si, pf, stg⟩ := cfg
  rcases pf with _ | ⟨_ | n⟩ <;>
    simp only [getProvidedFpiQueryParams]
  · exact ⟨none, rfl⟩
  · exact ⟨none, rfl⟩
  · by_cases hn : n = ""
    · exact ⟨none, by simp [hn, bmPure]⟩
    · obtain ⟨v, hv⟩ := getFromCookieOrLocalStorage_ok env n σ hg hl
      rcases v with _ | pv
      · exact ⟨none, by simp [hn, bmBind, hv, bmPure]⟩
      · by_cases hpv : pv = ""
        · exact ⟨none, by simp [hn, bmBind, hv, hpv, bmPure]⟩
        · exact ⟨some ("pfpi=" ++ pv ++ "&fpn=" ++ n),
            by simp [hn, bmBind, hv, hpv, bmPure]⟩

/-- A non-throwing scraped-parameter map succeeds without touching the
state. -/
theorem scrapedParams_ok (env : LCEnv)
    (hg : env.pol.cookieGetThrows = false) (hl : env.pol.lsGetThrows = false) :
    ∀ (names : List String) (σ : BrowserSt),
      ∃ ps, scrapedParams env names σ = (Except.ok ps, σ) := by
  intro names
  induction names with
  | nil => intro σ; exact ⟨[], by simp [scrapedParams, bmPure]⟩
  | cons n rest ih =>
    intro σ
    obtain ⟨v, hv⟩ := getFromCookieOrLocalStorage_ok env n σ hg hl
    obtain ⟨ps, hps⟩ := ih σ
    rcases v with _ | pv
    · exact ⟨"" :: ps, by simp [scrapedParams, bmBind, hv, hps, bmPure]⟩
    · by_cases hpv : pv = ""
      · subst hpv
        exact ⟨"" :: ps, by simp [scrapedParams, bmBind, hv, hps, bmPure]⟩
      · exact ⟨("ext_" ++ n ++ "=" ++ pv) :: ps,
          by simp [scrapedParams, bmBind, hv, hps, hpv, bmPure]⟩

/-- A non-throwing scraped-identifier assembly succeeds without touching
the state. -/
theorem getScrapedIdentifiers_ok (env : LCEnv) (cfg : ValidCfg) (σ : BrowserSt)
    (hg : env.pol.cookieGetThrows = false) (hl : env.pol.lsGetThrows = false) :
    ∃ q, getScrapedIdentifiers env cfg σ = (Except.ok q, σ) := by
  obtain ⟨si, pf, stg⟩ := cfg
  rcases si with _ | names
  · exact ⟨none, rfl⟩
  · obtain ⟨ps, hps⟩ := scrapedParams_ok env hg hl names σ
    by_cases hj : LiveIntentId.joinAmp (ps.filter (fun p => !decide (p = ""))) = ""
    · exact ⟨none, by simp [getScrapedIdentifiers, bmBind, hps, bmPure, hj]⟩
    · exact ⟨some (LiveIntentId.joinAmp (ps.filter (fun p => !decide (p = "")))),
        by simp [getScrapedIdentifiers, bmBind, hps, bmPure, hj]⟩

/-- A non-throwing beacon send succeeds: exactly one pixel emission,
one duid local-storage write on html5 storage, one duid cookie attempt
on all-accepted cookie storage. -/
theorem sendLiveConnectPixel_ok (env : LCEnv) (raw : JSV) (σ : BrowserSt)
    (hpol : polNoThrow env.pol) :
    ∃ uri σ', sendLiveConnectPixel env raw σ = (Except.ok uri, σ')
      ∧ ∃ δ, σ'.events = σ.events ++ δ
        ∧ countPixel δ = 1
        ∧ ((validateConfig raw).storage.type = LOCAL_STORAGE → countLsDuid δ = 1)
        ∧ ((validateConfig raw).storage.type = COOKIE → env.pol.cookiesEnabled = true →
            (∀ dm, env.pol.acceptsDomain dm = true) →
            ∀ d ds, domainCandidates env.hostParts = d :: ds → countCookieDuid δ = 1) := by
  obtain ⟨hg, hs, hl, hset⟩ := hpol
  obtain ⟨u, δ1, σ1, hdu, hev1, hp1, hls1, hck1⟩ :=
    getDuid_ok env (validateConfig raw) σ hg hs hl hset
  obtain ⟨fq, hfq⟩ := getProvidedFpiQueryParams_ok env (validateConfig raw) σ1 hg hl
  obtain ⟨sq, hsq⟩ := getScrapedIdentifiers_ok env (validateConfig raw) σ1 hg hl
  have hmain : ∃ uri σ', sendLiveConnectPixel env raw σ = (Except.ok uri, σ')
      ∧ σ' = { σ1 with events := (σ1.events ++ [StoreEv.pixelEv uri]) } := by
    simp only [sendLiveConnectPixel, bm_bind_def, bm_pure_def, bmBind, hdu, hfq, hsq,
      triggerPixelB, bmPure]
    exact ⟨_, _, rfl, rfl⟩
  obtain ⟨uri, σ', hrun, hσ'⟩ := hmain
  refine ⟨uri, σ', hrun, δ1 ++ [StoreEv.pixelEv uri], ?_, ?_, ?_, ?_⟩
  · rw [hσ']
    simp [hev1, List.append_assoc]
  · rw [countPixel_append, hp1]
    simp [countPixel]
  · intro h
    rw [countLsDuid_append, hls1 h]
    simp [countLsDuid]
  · intro h hen hacc d ds hcand
    rw [countCookieDuid_append, hck1 h hen hacc d ds hcand]
    simp [countCookieDuid]



/-- Once FIRED, an invocation of the hook is the identity. -/
theorem liveConnectHook_fired (env : LCEnv) (raw : JSV) (consent : Bool)
    (q : PageSt) (h : q.isPixelFired = true) :
    liveConnectHook env raw consent q = (Except.ok (), q) := by
  simp [liveConnectHook, h]

/-- Once FIRED, any number of further invocations is the identity. -/
theorem hookIter_fired (env : LCEnv) (raw : JSV) :
    ∀ (m : Nat) (q : PageSt), q.isPixelFired = true → hookIter env raw m q = q := by
  intro m
  induction m with
  | zero => intro q h; rfl
  | succ k ih =>
    intro q h
    simp only [hookIter, liveConnectHook_fired env raw true q h]
    exact ih q h

/-- C1: with consent permitted and non-faulting storage, any sequence
of two or more beacon-trigger invocations in one page lifetime performs
exactly one transport emission and exactly one stored-identifier write
(the duid value key; on cookie storage with accepted domains, one duid
cookie write); the flag starts false, the first invocation fires and
sets it, every later invocation is a no-op, the hook never clears the
flag, and only the explicit test-reset operation does. -/
theorem liveConnect_single_fire :
    ∀ (env : LCEnv) (raw : JSV) (n : Nat) (σ0 : BrowserSt),
      polNoThrow env.pol → 2 ≤ n →
      (hookIter env raw n { isPixelFired := false, browser := σ0 }).isPixelFired = true
      ∧ countPixel (hookIter env raw n { isPixelFired := false, browser := σ0 }).browser.events
          = countPixel σ0.events + 1
      ∧ ((validateConfig raw).storage.type = LOCAL_STORAGE →
          countLsDuid (hookIter env raw n { isPixelFired := false, browser := σ0 }).browser.events
            = countLsDuid σ0.events + 1)
      ∧ ((validateConfig raw).storage.type = COOKIE → env.pol.cookiesEnabled = true →
          (∀ dm, env.pol.acceptsDomain dm = true) → env.hostParts ≠ [] →
          countCookieDuid (hookIter env raw n { isPixelFired := false, browser := σ0 }).browser.events
            = countCookieDuid σ0.events + 1)
      ∧ (∀ (consent : Bool) (q : PageSt), q.isPixelFired = true →
          liveConnectHook env raw consent q = (Except.ok (), q))
      ∧ (∀ q : PageSt, (resetPixel q).isPixelFired = false ∧ (resetPixel q).browser = q.browser) := by
  intro env raw n σ0 hpol hn
  obtain ⟨uri, σ1, hrun, δ, hev, hp, hls, hck⟩ := sendLiveConnectPixel_ok env raw σ0 hpol
  obtain ⟨m, hm⟩ : ∃ m, n = m + 1 := ⟨n - 1, by omega⟩
  have hstep : liveConnectHook env raw true { isPixelFired := false, browser := σ0 }
      = (Except.ok (), { isPixelFired := true, browser := σ1 }) := by
    simp [liveConnectHook, bmBind, hrun, bmPure]
  have hiter : hookIter env raw n { isPixelFired := false, browser := σ0 }
      = { isPixelFired := true, browser := σ1 } := by
    rw [hm]
    simp only [hookIter, hstep]
    exact hookIter_fired env raw m _ rfl
  rw [hiter]
  refine ⟨rfl, ?_, ?_, ?_, ?_, ?_⟩
  · simp [hev, countPixel_append, hp]
  · intro h
    simp [hev, countLsDuid_append, hls h]
  · intro h hen hacc hhp
    rcases hp2 : env.hostParts with _ | ⟨p, rest⟩
    · exact absurd hp2 hhp
    · have hne : domainCandidates env.hostParts ≠ [] := by
        rw [hp2]; exact domainCandidates_ne_nil p rest
      rcases hcand : domainCandidates env.hostParts with _ | ⟨d, ds⟩
      · exact absurd hcand hne
      · simp [hev, countCookieDuid_append, hck h hen hacc d ds hcand]
  · intro consent q h
    exact liveConnectHook_fired env raw consent q h
  · intro q
    exact ⟨rfl, rfl⟩

/-- Witness for `liveConnect_single_fire`: two invocations at the
benign concrete environment fire exactly once. -/
theorem liveConnect_single_fire_witness :
    (hookIter envPlain (JSV.obj []) 2 { isPixelFired := false, browser := emptyBrowser }).isPixelFired = true
    ∧ countPixel (hookIter envPlain (JSV.obj []) 2 { isPixelFired := false, browser := emptyBrowser }).browser.events
        = countPixel emptyBrowser.events + 1
    ∧ countCookieDuid (hookIter envPlain (JSV.obj []) 2 { isPixelFired := false, browser := emptyBrowser }).browser.events
        = countCookieDuid emptyBrowser.events + 1 := by
  have h := liveConnect_single_fire envPlain (JSV.obj []) 2 emptyBrowser
    ⟨rfl, rfl, rfl, rfl⟩ (by omega)
  exact ⟨h.1, h.2.1, h.2.2.2.1 rfl rfl (fun dm => rfl) (by decide)⟩




/-- Witness for `getDuid_reuses_stored`: the stored html5 duid `"S"`
is reused and re-persisted with a refreshed expiry. -/
theorem getDuid_reuses_stored_witness :
    getDuid envPlain cfgHtml5 lsDuidStored
      = (Except.ok ("S", []),
         { lsDuidStored with
           ls := lsUpdate (lsUpdate lsDuidStored.ls (DUID_NAME ++ "_exp")
             (expiresString envPlain cfgHtml5.storage.expires)) DUID_NAME
             (envPlain.encodeURIComp "S")
           events := (lsDuidStored.events
             ++ [StoreEv.lsSetEv (DUID_NAME ++ "_exp")
                   (expiresString envPlain cfgHtml5.storage.expires),
                 StoreEv.lsSetEv DUID_NAME (envPlain.encodeURIComp "S")]) }) :=
  (getDuid_reuses_stored envPlain cfgHtml5 lsDuidStored "S" ⟨rfl, rfl, rfl, rfl⟩).1
    rfl rfl rfl (by decide)

end LiveConnect
